import Mathlib

/-!
Verification of the kasupel website client-side data-access layer.

We give a shallow embedding, in Lean, of the JavaScript code in
`src/static/js/api` (types.js, socket.js, games.js, utils.js) and prove or
refute the specified properties about it.

Modelling conventions:
* JavaScript values are modelled by the inductive type `JsVal`.  Numbers are
  modelled as integers (the API exchanges integral codes, ids, page numbers
  and second counts; fractional values play no role in any claim).
* Property reads `x.f` are modelled by `jsGetProp`, which faithfully raises a
  TypeError (an `Except.error`) when the receiver is `null` or `undefined`,
  and yields `undefined` for absent properties otherwise.
* JavaScript objects are association lists of string keys; numeric property
  keys are converted to strings exactly as JavaScript ToPropertyKey does.
* Functions that can throw return `Except JsErr _`; functions the source
  cannot throw from are total Lean functions.
-/

/-- A JavaScript runtime error (the only kind the modelled code can raise is
a TypeError). -/
inductive JsErr where
  | typeError (msg : String)
deriving DecidableEq

/-- A JavaScript value, as used by the wire payloads and the client code.
`fn` stands for a function value, identified by an opaque label. -/
inductive JsVal where
  | null
  | undefined
  | bool (b : Bool)
  | num (n : Int)
  | str (s : String)
  | arr (elems : List JsVal)
  | obj (fields : List (String × JsVal))
  | fn (id : Nat)

/-- Stringification of a non-array element of an array, as done by
`Array.prototype.toString` (`null` and `undefined` render as empty
strings). -/
def jsElemStr : JsVal → String
  | .null => ""
  | .undefined => ""
  | .bool true => "true"
  | .bool false => "false"
  | .num n => toString n
  | .str s => s
  | .obj _ => "[object Object]"
  | .fn _ => "function"
  | .arr _ => ""

/-- Stringification of the elements of an array, as done by
`Array.prototype.toString` (elements joined by commas, nested arrays joined
recursively). -/
def jsJoinList : List JsVal → String
  | [] => ""
  | .arr xs :: rest =>
    jsJoinList xs ++ (if rest.isEmpty then "" else "," ++ jsJoinList rest)
  | x :: rest =>
    jsElemStr x ++ (if rest.isEmpty then "" else "," ++ jsJoinList rest)

/-- JavaScript ToString on a value. -/
def jsToString : JsVal → String
  | .null => "null"
  | .undefined => "undefined"
  | .bool true => "true"
  | .bool false => "false"
  | .num n => toString n
  | .str s => s
  | .arr xs => jsJoinList xs
  | .obj _ => "[object Object]"
  | .fn _ => "function"

/-- JavaScript ToNumber on a value; `none` models NaN.  (Arrays and objects
coerce through their string form in JavaScript; no modelled code path feeds
them to a numeric context, so they are mapped to NaN here.) -/
def jsToNumber : JsVal → Option Int
  | .null => some 0
  | .undefined => none
  | .bool true => some 1
  | .bool false => some 0
  | .num n => some n
  | .str s => if s.trim = "" then some 0 else s.trim.toInt?
  | .arr _ => none
  | .obj _ => none
  | .fn _ => none

/-- JavaScript truthiness. -/
def jsTruthy : JsVal → Bool
  | .null => false
  | .undefined => false
  | .bool b => b
  | .num n => n != 0
  | .str s => s != ""
  | .arr _ => true
  | .obj _ => true
  | .fn _ => true

/-- Look a key up in the field list of an object (first binding wins, as wire
objects carry no duplicate keys). -/
def objLookup (fields : List (String × JsVal)) (k : String) : Option JsVal :=
  (fields.find? (fun p => p.1 = k)).map (fun p => p.2)

/-- JavaScript property read `v[k]` with a string key: a TypeError on `null`
or `undefined`, the own property or `undefined` on objects, index access on
arrays and strings, `undefined` on other primitives. -/
def jsGetProp (v : JsVal) (k : String) : Except JsErr JsVal :=
  match v with
  | .null => .error (.typeError "cannot read properties of null")
  | .undefined => .error (.typeError "cannot read properties of undefined")
  | .obj fields => .ok ((objLookup fields k).getD .undefined)
  | .arr xs =>
    .ok (match k.toNat? with
         | some i => xs.getD i .undefined
         | none => .undefined)
  | .str s =>
    .ok (match k.toNat? with
         | some i => match s.toList.get? i with
                     | some c => .str (String.singleton c)
                     | none => .undefined
         | none => .undefined)
  | _ => .ok .undefined

/-- JavaScript ToPropertyKey (the conversion applied to `item[field]` when it
is used as an index into the lookup table). -/
def jsPropKey (v : JsVal) : String := jsToString v

/-- JavaScript property read `v[key]` where the key is itself a value. -/
def jsGetPropVal (v : JsVal) (key : JsVal) : Except JsErr JsVal :=
  jsGetProp v (jsPropKey key)

/-- The `in` operator `k in v`: a TypeError unless the right operand is an
object (or array/function); otherwise an own-property check. -/
def jsHasProp (v : JsVal) (k : String) : Except JsErr Bool :=
  match v with
  | .obj fields => .ok (fields.any (fun p => p.1 = k))
  | .arr xs => .ok ((k.toNat?.map (fun i => decide (i < xs.length))).getD false)
  | .fn _ => .ok false
  | _ => .error (.typeError "cannot use in operator")

/-- The `hasOwnProperty` check used by the `User` constructor (the data there
is always an object; primitives have no own properties). -/
def jsHasOwn (v : JsVal) (k : String) : Bool :=
  match v with
  | .obj fields => fields.any (fun p => p.1 = k)
  | .arr xs => (k.toNat?.map (fun i => decide (i < xs.length))).getD false
  | _ => false

/-- Functional update of an object field, as done by the assignment
`item[field] = ...` on an existing field. -/
def objSet (fields : List (String × JsVal)) (k : String) (v : JsVal) :
    List (String × JsVal) :=
  fields.map (fun p => if p.1 = k then (k, v) else p)

-- === The Enum class (types.js lines 16-55) ===

/-- The `Enum` class of types.js: an ordered list of option names.  The
constructor assigns `values[names[i]] = parseInt(i) + 1`, so the wire value
of the i-th name is `i + 1`.  JavaScript symbols are modelled by their
description string, which is unique within each enum. -/
structure JsEnum where
  names : List String
deriving DecidableEq

/-- The name/value pairs of an enum, in insertion order. -/
def JsEnum.pairs (e : JsEnum) : List (String × Int) :=
  e.names.enum.map (fun p => (p.2, (p.1 : Int) + 1))

/-- Strict equality `v === n` against a number: true exactly for a number
value with the same magnitude (no coercions under ===). -/
def jsStrictEqNum (v : JsVal) (n : Int) : Bool :=
  match v with
  | .num m => m = n
  | _ => false

/-- Source `Enum.getByValue`: iterate the values in insertion order and return the
symbol of the first name whose value is strictly equal to the argument.
When no name matches, the loop falls through and the function returns
`undefined`, modelled as `none`.  The source contains no throw statement. -/
def JsEnum.getByValue (e : JsEnum) (value : JsVal) : Option String :=
  ((e.pairs).find? (fun p => jsStrictEqNum value p.2)).map (fun p => p.1)

/-- Source `Enum.valueFor`: look up the wire value for an option by its description;
`undefined` when not found. -/
def JsEnum.valueFor (e : JsEnum) (option : String) : JsVal :=
  match (e.pairs).find? (fun p => p.1 = option) with
  | some p => .num p.2
  | none => .undefined

/-- The set of wire values an enum actually defines. -/
def JsEnum.definedValues (e : JsEnum) : List Int :=
  (e.pairs).map (fun p => p.2)

-- The six enums of types.js.

def GameMode : JsEnum := ⟨["CHESS"]⟩

def Winner : JsEnum := ⟨["GAME_NOT_COMPLETE", "HOST", "AWAY", "DRAW"]⟩

def Conclusion : JsEnum :=
  ⟨["GAME_NOT_COMPLETE", "CHECKMATE", "RESIGNATION", "TIME", "STALEMATE",
    "THREEFOLD_REPETITION", "FIFTY_MOVE_RULE", "AGREED_DRAW"]⟩

def PieceType : JsEnum :=
  ⟨["PAWN", "ROOK", "KNIGHT", "BISHOP", "QUEEN", "KING"]⟩

def Side : JsEnum := ⟨["HOST", "AWAY"]⟩

def DisconnectReason : JsEnum :=
  ⟨["INVITE_DECLINED", "NEW_CONNECTION", "GAME_OVER"]⟩

-- === KasupelError.isInDomain (types.js lines 441-448) ===

/-- The loop of `isInDomain` building the pattern source: append the digits
of the domain until the first literal "0" character, then stop. -/
def domainStem : List Char → List Char
  | [] => []
  | c :: rest => if c = '0' then [] else c :: domainStem rest

/-- Source `KasupelError.isInDomain`: the source builds the pattern
`"^" ++ domainStem (digits of domain)` and tests it against the decimal
string of the code; since the pattern is a literal string anchored at the
start, the regex test holds exactly when the pattern is a prefix of the
code digits. -/
def isInDomain (code : Int) (domain : Int) : Bool :=
  List.isPrefixOf (domainStem (toString domain).toList) (toString code).toList

/-- Modelled from the words of the spec: a code is in a domain when the
decimal form of the code starts with the leading non-zero digit prefix of
the domain. -/
def specDomainMember (code : Int) (domain : Int) : Bool :=
  List.isPrefixOf ((toString domain).toList.takeWhile (fun c => c ≠ '0'))
    (toString code).toList

-- === prettify.js: prettyTimedelta ===

/-- One step of the prettyTimedelta loop: when the period fits, append the
truncated quotient and the period letter and keep the remainder.  The branch
is only taken when `1 <= periodSeconds <= seconds`, so the operands are
positive and Lean integer division and remainder agree with
`Math.trunc(seconds / periodSeconds)` and the JavaScript `%`. -/
def timedeltaStep (acc : String × Int) (period : String × Int) : String × Int :=
  if period.2 ≤ acc.2 then
    (acc.1 ++ toString (acc.2 / period.2) ++ period.1, acc.2 % period.2)
  else acc

/-- Source `prettyTimedelta` on an already-numeric value (seconds). -/
def prettyTimedeltaInt (seconds : Int) : String :=
  let r := [("d", (86400 : Int)), ("h", 3600), ("m", 60), ("s", 1)].foldl
    timedeltaStep ("", seconds)
  if r.1 = "" then "0" else r.1

/-- Source `prettyTimedelta` on a wire value.  A value that coerces to NaN fails
every `periodSeconds <= seconds` comparison, leaves `pretty` empty and yields
"0"; otherwise the comparisons and arithmetic act on the coerced number. -/
def prettyTimedeltaJs (seconds : JsVal) : String :=
  match jsToNumber seconds with
  | some n => prettyTimedeltaInt n
  | none => "0"

-- === types.js: loadTimestamp ===

/-- Source `loadTimestamp`: `null` for a nullish timestamp (the source uses loose
`== null`, which also catches `undefined`); otherwise a Date built from
`timestamp * 1000` milliseconds.  The result is `none` for the null branch;
`some (some ms)` is a valid Date and `some none` an invalid Date (a
non-numeric timestamp). -/
def loadTimestamp (timestamp : JsVal) : Option (Option Int) :=
  match timestamp with
  | .null => none
  | .undefined => none
  | v => some ((jsToNumber v).map (fun n => n * 1000))

-- === types.js: TimeControl ===

/-- The API base URL from utils.js. -/
def API_URL : String := "https://chess-api.polytopia.win"

/-- The `TimeControl` dataclass: the three stored magnitudes plus the derived
short human-readable form (named `shortNotation` in the source). -/
structure TimeControlE where
  mainThinkingTime : JsVal
  fixedExtraTime : JsVal
  timeIncrementPerTurn : JsVal
  shortForm : String

/-- The `TimeControl` constructor: store the three magnitudes and derive the
short form from them. -/
def mkTimeControl (mainThinkingTime fixedExtraTime timeIncrementPerTurn : JsVal) :
    TimeControlE :=
  let s0 := prettyTimedeltaJs mainThinkingTime
  let s1 := if jsTruthy timeIncrementPerTurn then
    s0 ++ "|" ++ prettyTimedeltaJs timeIncrementPerTurn else s0
  let s2 := if jsTruthy fixedExtraTime then
    s1 ++ " delay " ++ prettyTimedeltaJs fixedExtraTime else s1
  ⟨mainThinkingTime, fixedExtraTime, timeIncrementPerTurn, s2⟩

/-- Source `TimeControl.apiFormat`: the three magnitudes as a snake_case object. -/
def TimeControlE.apiFormat (tc : TimeControlE) : JsVal :=
  .obj [("main_thinking_time", tc.mainThinkingTime),
        ("fixed_extra_time", tc.fixedExtraTime),
        ("time_increment_per_turn", tc.timeIncrementPerTurn)]

-- === types.js: User ===

/-- The `User` dataclass.  `createdAt` is the loaded timestamp; `avatarUrl`
holds either the absolute URL string or `null`; the email fields are only
assigned when the wire object owns an `email` key (otherwise they stay
`undefined`). -/
structure UserE where
  id : JsVal
  username : JsVal
  elo : JsVal
  createdAt : Option (Option Int)
  avatarUrl : JsVal
  hasEmail : Bool
  email : JsVal
  emailVerified : JsVal

/-- The `User` constructor.  Every read is a property access on `data`, which
raises a TypeError when `data` is nullish. -/
def userFromWire (data : JsVal) : Except JsErr UserE := do
  let id ← jsGetProp data "id"
  let username ← jsGetProp data "username"
  let elo ← jsGetProp data "elo"
  let createdAtRaw ← jsGetProp data "created_at"
  let avatarRaw ← jsGetProp data "avatar_url"
  let avatarUrl : JsVal :=
    if jsTruthy avatarRaw then .str (API_URL ++ jsToString avatarRaw) else .null
  let hasEmail := jsHasOwn data "email"
  let email ← if hasEmail then jsGetProp data "email" else pure .undefined
  let emailVerified ←
    if hasEmail then jsGetProp data "email_verified" else pure .undefined
  pure ⟨id, username, elo, loadTimestamp createdAtRaw, avatarUrl, hasEmail,
        email, emailVerified⟩

-- === types.js: Game ===

/-- The `Game` dataclass.  Fields guarded by a truthiness test in the source
(`mode`, `host`, `away`, `invited`) use an outer `none` for the `null`
branch; enum decodes are the `getByValue` result (`none` when the wire value
is outside the enum). -/
structure GameE where
  id : JsVal
  mode : Option (Option String)
  host : Option UserE
  away : Option UserE
  invited : Option UserE
  currentTurn : Option String
  turnNumber : JsVal
  timeControl : TimeControlE
  hostTime : JsVal
  awayTime : JsVal
  hostOfferingDraw : JsVal
  awayOfferingDraw : JsVal
  winner : Option String
  conclusionType : Option String
  openedAt : Option (Option Int)
  startedAt : Option (Option Int)
  endedAt : Option (Option Int)

/-- The ternary `data.x ? new User(data.x) : null` used by the `Game`
constructor for its host, away and invited fields. -/
def decodeOptionalUser (v : JsVal) : Except JsErr (Option UserE) :=
  if jsTruthy v then (userFromWire v).map some else pure none

/-- The `Game` constructor, line for line from the source. -/
def gameFromWire (data : JsVal) : Except JsErr GameE := do
  let id ← jsGetProp data "id"
  let modeRaw ← jsGetProp data "mode"
  let mode : Option (Option String) :=
    if jsTruthy modeRaw then some (GameMode.getByValue modeRaw) else none
  let hostRaw ← jsGetProp data "host"
  let host ← decodeOptionalUser hostRaw
  let awayRaw ← jsGetProp data "away"
  let away ← decodeOptionalUser awayRaw
  let invitedRaw ← jsGetProp data "invited"
  let invited ← decodeOptionalUser invitedRaw
  let currentTurnRaw ← jsGetProp data "current_turn"
  let turnNumber ← jsGetProp data "turn_number"
  let mainThinkingTime ← jsGetProp data "main_thinking_time"
  let fixedExtraTime ← jsGetProp data "fixed_extra_time"
  let timeIncrementPerTurn ← jsGetProp data "time_increment_per_turn"
  let hostTime ← jsGetProp data "host_time"
  let awayTime ← jsGetProp data "away_time"
  let hostOfferingDraw ← jsGetProp data "host_offering_draw"
  let awayOfferingDraw ← jsGetProp data "away_offering_draw"
  let winnerRaw ← jsGetProp data "winner"
  let conclusionRaw ← jsGetProp data "conclusion_type"
  let openedAtRaw ← jsGetProp data "opened_at"
  let startedAtRaw ← jsGetProp data "started_at"
  let endedAtRaw ← jsGetProp data "ended_at"
  pure ⟨id, mode, host, away, invited, Side.getByValue currentTurnRaw,
        turnNumber,
        mkTimeControl mainThinkingTime fixedExtraTime timeIncrementPerTurn,
        hostTime, awayTime, hostOfferingDraw, awayOfferingDraw,
        Winner.getByValue winnerRaw, Conclusion.getByValue conclusionRaw,
        loadTimestamp openedAtRaw, loadTimestamp startedAtRaw,
        loadTimestamp endedAtRaw⟩

-- === types.js: Move ===

/-- The `Move` dataclass.  The promotion field holds `null` or a PieceType
symbol; the other four fields hold whatever wire values were supplied. -/
structure MoveE where
  startRank : JsVal
  startFile : JsVal
  endRank : JsVal
  endFile : JsVal
  promotion : Option String

/-- Source `Move.fromApiData`: read the snake_case fields and decode the promotion
with `PieceType.getByValue`.  When the wire promotion is `null`, no value
matches and `getByValue` returns `undefined`, which makes the constructor
destructuring fall back to its `null` default — both land on `none` here. -/
def moveFromApiData (data : JsVal) : Except JsErr MoveE := do
  let startRank ← jsGetProp data "start_rank"
  let startFile ← jsGetProp data "start_file"
  let endRank ← jsGetProp data "end_rank"
  let endFile ← jsGetProp data "end_file"
  let promotionRaw ← jsGetProp data "promotion"
  pure ⟨startRank, startFile, endRank, endFile,
        PieceType.getByValue promotionRaw⟩

/-- Source `Move.apiFormat`: emit snake_case keys; a truthy promotion is encoded
with `PieceType.valueFor`, otherwise `null` is sent. -/
def MoveE.apiFormat (m : MoveE) : JsVal :=
  .obj [("start_rank", m.startRank),
        ("start_file", m.startFile),
        ("end_rank", m.endRank),
        ("end_file", m.endFile),
        ("promotion", match m.promotion with
                      | some p => PieceType.valueFor p
                      | none => .null)]

-- === types.js: Board (lines 222-255) ===

/-- A `Piece`: the decoded type and side (each `none` when `getByValue` found
no match and returned `undefined`). -/
structure PieceCell where
  pieceType : Option String
  side : Option String

/-- One board square: `null` or a Piece. -/
abbrev BoardCell := Option PieceCell

/-- Stringification of one cell of the in-progress rank array, as the
template literal coerces it inside `Array.prototype.toString`: a `null`
element joins as the empty string, a Piece object as "[object Object]". -/
def cellStr : BoardCell → String
  | none => ""
  | some _ => "[object Object]"

/-- The position key the Board constructor actually probes.  The source reads
`positionKey = rank + "," + file` inside the inner loop, but the outer loop
variable `rank` is shadowed by `let rank = []` at the top of the loop body,
so the template stringifies the partially built ARRAY of cells, not the rank
number.  The file index always equals the number of cells pushed so far. -/
def rankKey (cells : List BoardCell) : String :=
  String.intercalate "," (cells.map cellStr) ++ "," ++ toString cells.length

/-- The inner (file) loop of the Board constructor: probe the computed key;
on a hit, read indices 0 and 1 of the stored value (a TypeError when that
value is nullish) and push a Piece; on a miss push `null`. -/
def boardFiles (data : List (String × JsVal)) :
    Nat → List BoardCell → Except JsErr (List BoardCell)
  | 0, cells => .ok cells
  | fuel + 1, cells =>
    match objLookup data (rankKey cells) with
    | some v =>
      match jsGetProp v "0", jsGetProp v "1" with
      | .ok ptRaw, .ok sdRaw =>
        boardFiles data fuel
          (cells ++ [some ⟨PieceType.getByValue ptRaw, Side.getByValue sdRaw⟩])
      | .error e, _ => .error e
      | _, .error e => .error e
    | none => boardFiles data fuel (cells ++ [none])

/-- The `Board` constructor on a wire object (`data` is the field list of the
object).  The outer loop runs eight times, but its body never mentions the
outer loop variable (it is shadowed immediately), so all eight ranks are the
same list and the whole board is eight copies of it. -/
def boardFromWire (data : List (String × JsVal)) :
    Except JsErr (List (List BoardCell)) :=
  (boardFiles data 8 []).map (fun r => List.replicate 8 r)

/-- A wire value that is neither `null` nor `undefined` (property access on
such a value cannot throw). -/
def nonNullish : JsVal → Bool
  | .null => false
  | .undefined => false
  | _ => true

/-- The eight keys the Board constructor probes when every probe misses (all
cells stay `null`): the stringified all-null cell array followed by the file
index.  No key of the standard "rank,file" form is among them. -/
def missProbeKeys : List String :=
  [",0", ",1", ",,2", ",,,3", ",,,,4", ",,,,,5", ",,,,,,6", ",,,,,,,7"]

-- === types.js: Paginator (lines 356-420) ===

/-- Source `KasupelError`: `code` is `data.error` from the wire envelope.  The code
is kept as a wire value because the strict comparison `error.code === 3201`
must distinguish a number from `undefined`. -/
structure KasupelErrorE where
  code : JsVal
  message : JsVal

/-- An error escaping `getPage`: either a server-reported `KasupelError`
rejection or a TypeError raised inside the `then` handler (the `catch`
clause sees both). -/
inductive PgErr where
  | api (e : KasupelErrorE)
  | js (e : JsErr)

/-- The mutable fields of a `Paginator` that any call can touch: the
auto-advance cursor `page`, the advisory `pages` count (initially `null`),
the one-way `endReached` flag, and the `page` entry of the shared
`parameters` object (absent until the first call writes it).  The
constructor-fixed configuration (endpoint, field names, authenticate) is
passed separately since no code path writes it. -/
structure PaginatorState where
  page : Int
  pages : JsVal
  endReached : Bool
  parametersPage : Option Int

/-- A freshly constructed paginator. -/
def paginatorInit : PaginatorState := ⟨0, .null, false, none⟩

/-- The reference-field substitution loop inside `getPage`: for each
configured field present on the item, replace the item value by
`response[referenceFields[field]][item[field]]`.  (`field in item` raises a
TypeError when the item is not an object; property assignment on a non
object cannot be reached because the presence check fails first for the
non-numeric configured field names.) -/
def substituteRefs (referenceFields : List (String × String)) (response : JsVal)
    (item : JsVal) : Except JsErr JsVal :=
  referenceFields.foldlM (fun it fld => do
    let present ← jsHasProp it fld.1
    if present then do
      let table ← jsGetProp response fld.2
      let keyVal ← jsGetProp it fld.1
      let newVal ← jsGetPropVal table keyVal
      match it with
      | .obj fs => pure (.obj (objSet fs fld.1 newVal))
      | other => pure other
    else pure it) item

/-- Enumeration order of `for ... in` over a value: array elements in index
order, object values in key order, nothing for primitives and nullish
values. -/
def jsForInValues : JsVal → List JsVal
  | .arr xs => xs
  | .obj fs => fs.map (fun p => p.2)
  | _ => []

/-- The item loop of the `then` handler: substitute reference fields, then
decode with `new this.type(item)` (the decoder stands for the configured
dataclass constructor). -/
def processItems {α : Type} (decode : JsVal → Except JsErr α)
    (referenceFields : List (String × String)) (response : JsVal)
    (itemsVal : JsVal) : Except JsErr (List α) :=
  (jsForInValues itemsVal).foldlM (fun acc item => do
    let item2 ← substituteRefs referenceFields response item
    let x ← decode item2
    pure (acc ++ [x])) []

/-- Everything one `getPage` call produces: the page number sent to the
server, the settled promise, and the paginator state afterwards. -/
structure GetPageResult (α : Type) where
  requested : Int
  result : Except PgErr (List α)
  state : PaginatorState

/-- Source `Paginator.getPage`, line for line.  `pageArg` is the optional explicit
page; `reply` is how the `call` promise settles for the requested page.
The cursor is read and incremented before the request in auto mode; the
`catch` clause converts only a server error with code 3201 in auto mode
into an empty page plus `endReached`, and rethrows everything else
(a TypeError from the `then` handler has no `code` property, so the strict
comparison with 3201 fails for it). -/
def getPage {α : Type} (decode : JsVal → Except JsErr α)
    (paginatedField : String) (referenceFields : List (String × String))
    (s : PaginatorState) (pageArg : Option Int)
    (reply : Except KasupelErrorE JsVal) : GetPageResult α :=
  let autoPage := pageArg.isNone
  let page := pageArg.getD s.page
  let s1 := if autoPage then { s with page := s.page + 1 } else s
  let s2 := { s1 with parametersPage := some page }
  match reply with
  | .ok response =>
    match jsGetProp response "pages" with
    | .error e => ⟨page, .error (.js e), s2⟩
    | .ok pgs =>
      let s3 := { s2 with pages := pgs }
      match jsGetProp response paginatedField with
      | .error e => ⟨page, .error (.js e), s3⟩
      | .ok itemsVal =>
        match processItems decode referenceFields response itemsVal with
        | .error e => ⟨page, .error (.js e), s3⟩
        | .ok items => ⟨page, .ok items, s3⟩
  | .error kerr =>
    if jsStrictEqNum kerr.code 3201 && autoPage then
      ⟨page, .ok [], { s2 with endReached := true }⟩
    else
      ⟨page, .error (.api kerr), s2⟩

-- === games.js: gamePaginator configuration ===

/-- The paginated field every game listing uses. -/
def gamePaginatedField : String := "games"

/-- The reference-field map every game listing paginator is constructed
with: `host`, `away` and `invited` resolve against the sibling `users`
table. -/
def gameReferenceFields : List (String × String) :=
  [("host", "users"), ("away", "users"), ("invited", "users")]

-- === socket.js: KasupelSocket.sendEvent (lines 56-72) ===

/-- An inbound correlated event: the socket event name, the embedded
`response_to` id, and an opaque payload label standing for the rest of the
body. -/
structure RespEvent where
  name : String
  respTo : Nat
  payload : Nat
deriving DecidableEq

/-- The send-side state of a `KasupelSocket`: the next correlation id and
the listeners registered on the underlying socket by `sendEvent` calls, in
registration order (event name, correlation id). -/
structure SendState where
  eventId : Nat
  listeners : List (String × Nat)
deriving DecidableEq

/-- A freshly opened socket: `eventId` starts at 0 and no send listeners. -/
def sendInit : SendState := ⟨0, []⟩

/-- Source `sendEvent`: allocate the next correlation id (post-increment), attach it
to the payload, emit it, and register two listeners with `socket.on` — one on
the response name and one on `request_error`, each closing over the id of this
call.  The source never calls `socket.off` or uses `once`, so registration only
ever appends. -/
def sendEvent (responseName : String) (s : SendState) : Nat × SendState :=
  (s.eventId,
   ⟨s.eventId + 1,
    s.listeners ++ [(responseName, s.eventId), ("request_error", s.eventId)]⟩)

/-- Delivery of an inbound event to the socket.  Each registered listener
whose event name matches runs; a success listener resolves its promise when
`data.response_to === eventId`.  No listener removes itself or any other
listener, so the state after a delivery is the state before it. -/
def deliver (s : SendState) (_r : RespEvent) : SendState := s

/-- Whether delivering `r` fires the success waiter of the call with id
`callId` and response name `responseName`: that listener must be registered,
the event must arrive under that name, and the embedded `response_to` must
strictly equal the id. -/
def waiterFires (s : SendState) (responseName : String) (callId : Nat)
    (r : RespEvent) : Bool :=
  s.listeners.contains (responseName, callId) && r.name = responseName
    && r.respTo = callId

/-- Run a sequence of deliveries and report how the promise of the call with
id `callId` resolves: the first delivery that fires its success waiter wins
(a promise can only settle once). -/
def settle (s : SendState) (rs : List RespEvent) (callId : Nat)
    (responseName : String) : Option RespEvent :=
  match rs with
  | [] => none
  | r :: rest =>
    if waiterFires s responseName callId r then some r
    else settle (deliver s r) rest callId responseName

/-- Running `n` successive `sendEvent` calls with the default response name "ack"
from a fresh socket: the list of correlation ids handed out, in call order,
and the final state. -/
def sendTrace : Nat → List Nat × SendState
  | 0 => ([], sendInit)
  | n + 1 =>
    let (ids, s) := sendTrace n
    let (id, s2) := sendEvent "ack" s
    (ids ++ [id], s2)

-- === socket.js: handler registry and the onAny dispatcher ===

/-- Source `KasupelSocket.on`: append the callback to the list for the event, or
start a fresh singleton list. -/
def handlersAdd (handlers : List (String × List JsVal)) (event : String)
    (callback : JsVal) : List (String × List JsVal) :=
  if handlers.any (fun p => p.1 = event) then
    handlers.map (fun p => if p.1 = event then (p.1, p.2 ++ [callback]) else p)
  else handlers ++ [(event, [callback])]

/-- A performed handler invocation: which function value was called and with
which arguments. -/
structure Invocation where
  fnId : Nat
  args : List JsVal

/-- Calling a value: only function values are callable; calling anything
else raises a TypeError. -/
def jsCall (v : JsVal) (args : List JsVal) : Except JsErr Invocation :=
  match v with
  | .fn id => .ok ⟨id, args⟩
  | _ => .error (.typeError "handler is not a function")

/-- The `onAny` dispatcher of the constructor for one occurrence of
`eventName`, given the argument tuple `args` already produced by the
processor for that event.  When the event has registered handlers the source
runs `for (let handler in this.handlers[eventName])`: `for...in` over an
array yields its INDEX STRINGS, and the body then calls the loop variable
itself, `handler(...args)` — that is, it calls the string "0", "1", ...
rather than the stored callbacks. -/
def dispatchEvent (handlers : List (String × List JsVal)) (args : List JsVal)
    (eventName : String) : Except JsErr (List Invocation) :=
  match handlers.find? (fun p => p.1 = eventName) with
  | some p =>
    (List.range p.2.length).foldlM (fun acc i => do
      let inv ← jsCall (.str (toString i)) args
      pure (acc ++ [inv])) []
  | none => .ok []

-- === Helper lemmas ===

/-- The pattern-building loop of `isInDomain` computes exactly the maximal
prefix of the domain digits containing no literal zero. -/
theorem domainStem_eq_takeWhile (l : List Char) :
    domainStem l = l.takeWhile (fun c => c ≠ '0') := by
  induction l with
  | nil => rfl
  | cons c rest ih =>
    by_cases h : c = '0'
    · subst h
      simp [domainStem, List.takeWhile]
    · simp [domainStem, h, List.takeWhile, ih]

/-- C9: `isInDomain` decides membership by the leading non-zero digit prefix
of the domain: code 2134 is in domains 21, 213 and 2134 but not in domain
22, and in general the test compares the decimal form of the code against
the prefix of the domain digits before the first zero. -/
theorem C9_isInDomain :
    (∀ code domain : Int, isInDomain code domain = specDomainMember code domain)
    ∧ isInDomain 2134 21 = true
    ∧ isInDomain 2134 213 = true
    ∧ isInDomain 2134 2134 = true
    ∧ isInDomain 2134 22 = false := by
  refine ⟨?_, by decide, by decide, by decide, by decide⟩
  intro code domain
  unfold isInDomain specDomainMember
  rw [domainStem_eq_takeWhile]

/-- C6 counterexample: decoding a wire integer outside the defined set does
NOT fail with a DecodeError — `getByValue` contains no throw statement and
simply falls off the end of its loop, returning `undefined` (GameMode
defines only the value 1, and decoding 2 returns normally). -/
theorem C6_counterexample : GameMode.getByValue (.num 2) = none := by decide

/-- C6 (amended): for every enumeration and every wire integer outside its
defined value set, decoding returns no symbol at all (`undefined`): it never
returns a defined symbol, and it does not raise any error. -/
theorem C6_unknown_decodes_to_undefined :
    ∀ e ∈ [GameMode, Winner, Conclusion, PieceType, Side, DisconnectReason],
    ∀ n : Int, n ∉ e.definedValues → e.getByValue (.num n) = none := by
  intro e _ n hn
  unfold JsEnum.getByValue
  rw [List.find?_eq_none.mpr, Option.map_none']
  intro p hp
  simp only [jsStrictEqNum, decide_eq_true_eq]
  intro hEq
  exact hn (hEq ▸ List.mem_map_of_mem (fun q => q.2) hp)

/-- C6 amended witness: decoding 99 on GameMode. -/
theorem C6_unknown_witness : GameMode.getByValue (.num 99) = none :=
  C6_unknown_decodes_to_undefined GameMode (by decide) 99 (by decide)

/-- C5: wire round trips.  For every Move whose promotion is absent or a
defined PieceType, `Move.fromApiData(move.apiFormat())` rebuilds an equal
Move; and rebuilding a TimeControl from the three magnitudes carried by
`apiFormat()` yields a TimeControl with equal magnitudes (hence equal
derived short form). -/
theorem C5_roundtrip :
    (∀ m : MoveE,
      (m.promotion = none ∨ ∃ p, m.promotion = some p ∧ p ∈ PieceType.names) →
      moveFromApiData (MoveE.apiFormat m) = .ok m)
    ∧ (∀ a b c a2 b2 c2 : JsVal,
      jsGetProp ((mkTimeControl a b c).apiFormat) "main_thinking_time" = .ok a2 →
      jsGetProp ((mkTimeControl a b c).apiFormat) "fixed_extra_time" = .ok b2 →
      jsGetProp ((mkTimeControl a b c).apiFormat) "time_increment_per_turn"
        = .ok c2 →
      mkTimeControl a2 b2 c2 = mkTimeControl a b c) := by
  constructor
  · rintro ⟨sr, sf, er, ef, prom⟩ (h | ⟨p, h, hmem⟩)
    · simp only at h
      subst h
      rfl
    · simp only at h
      subst h
      fin_cases hmem <;> rfl
  · intro a b c a2 b2 c2 h1 h2 h3
    have e1 : jsGetProp ((mkTimeControl a b c).apiFormat) "main_thinking_time"
        = .ok a := rfl
    have e2 : jsGetProp ((mkTimeControl a b c).apiFormat) "fixed_extra_time"
        = .ok b := rfl
    have e3 : jsGetProp ((mkTimeControl a b c).apiFormat)
        "time_increment_per_turn" = .ok c := rfl
    rw [e1] at h1
    rw [e2] at h2
    rw [e3] at h3
    cases h1
    cases h2
    cases h3
    rfl

/-- C5 witness: a concrete queen promotion move round trips, and a concrete
time control round trips. -/
theorem C5_roundtrip_witness :
    moveFromApiData (MoveE.apiFormat ⟨.num 6, .num 4, .num 7, .num 4,
      some "QUEEN"⟩) = .ok ⟨.num 6, .num 4, .num 7, .num 4, some "QUEEN"⟩
    ∧ mkTimeControl (.num 300) (.num 0) (.num 5)
      = mkTimeControl (.num 300) (.num 0) (.num 5) :=
  ⟨C5_roundtrip.1 ⟨.num 6, .num 4, .num 7, .num 4, some "QUEEN"⟩
    (Or.inr ⟨"QUEEN", rfl, by decide⟩),
   C5_roundtrip.2 (.num 300) (.num 0) (.num 5) (.num 300) (.num 0) (.num 5)
     rfl rfl rfl⟩

-- Paginator helper lemmas.

/-- Once `endReached` is true, no `getPage` call of any kind resets it. -/
theorem getPage_endReached_mono {α : Type} (decode : JsVal → Except JsErr α)
    (pf : String) (rf : List (String × String)) (s : PaginatorState)
    (pageArg : Option Int) (reply : Except KasupelErrorE JsVal)
    (h : s.endReached = true) :
    (getPage decode pf rf s pageArg reply).state.endReached = true := by
  unfold getPage
  rcases reply with resp | kerr <;> cases pageArg <;> simp only [] <;>
    split <;> (try split) <;> (try split) <;> simp_all

/-- An auto-advance call requests the current cursor value and advances the
cursor by exactly one, whatever the reply is. -/
theorem getPage_auto_cursor {α : Type} (decode : JsVal → Except JsErr α)
    (pf : String) (rf : List (String × String)) (s : PaginatorState)
    (reply : Except KasupelErrorE JsVal) :
    (getPage decode pf rf s none reply).requested = s.page
    ∧ (getPage decode pf rf s none reply).state.page = s.page + 1 := by
  refine ⟨?_, ?_⟩ <;>
    (unfold getPage
     rcases reply with resp | kerr <;> simp only [] <;>
       split <;> (try split) <;> (try split) <;> simp_all)

/-- An explicit call requests exactly the page it was given and leaves the
cursor and the end flag untouched, whatever the reply is. -/
theorem getPage_explicit_cursor {α : Type} (decode : JsVal → Except JsErr α)
    (pf : String) (rf : List (String × String)) (s : PaginatorState)
    (n : Int) (reply : Except KasupelErrorE JsVal) :
    (getPage decode pf rf s (some n) reply).requested = n
    ∧ (getPage decode pf rf s (some n) reply).state.page = s.page
    ∧ (getPage decode pf rf s (some n) reply).state.endReached
      = s.endReached := by
  refine ⟨?_, ?_, ?_⟩ <;>
    (unfold getPage
     rcases reply with resp | kerr <;> simp only [] <;>
       split <;> (try split) <;> (try split) <;> simp_all)

/-- C3: end-of-stream handling of `getPage`.  A server error with the
reserved code 3201 on an auto-advance call resolves to the empty sequence
and sets `endReached`; `endReached` is one-way (never reset by any later
call); a server error with any other code on an auto-advance call, and a
server error of any code on an explicit-page call, propagate unchanged. -/
theorem C3_exhaustion :
    (∀ (α : Type) (decode : JsVal → Except JsErr α) (pf : String)
       (rf : List (String × String)) (s : PaginatorState)
       (kerr : KasupelErrorE),
      jsStrictEqNum kerr.code 3201 = true →
      (getPage decode pf rf s none (.error kerr)).result = .ok []
      ∧ (getPage decode pf rf s none (.error kerr)).state.endReached = true)
    ∧ (∀ (α : Type) (decode : JsVal → Except JsErr α) (pf : String)
         (rf : List (String × String)) (s : PaginatorState)
         (pageArg : Option Int) (reply : Except KasupelErrorE JsVal),
        s.endReached = true →
        (getPage decode pf rf s pageArg reply).state.endReached = true)
    ∧ (∀ (α : Type) (decode : JsVal → Except JsErr α) (pf : String)
         (rf : List (String × String)) (s : PaginatorState)
         (kerr : KasupelErrorE),
        jsStrictEqNum kerr.code 3201 = false →
        (getPage decode pf rf s none (.error kerr)).result
          = .error (.api kerr))
    ∧ (∀ (α : Type) (decode : JsVal → Except JsErr α) (pf : String)
         (rf : List (String × String)) (s : PaginatorState) (n : Int)
         (kerr : KasupelErrorE),
        (getPage decode pf rf s (some n) (.error kerr)).result
          = .error (.api kerr)) := by
  refine ⟨?_, ?_, ?_, ?_⟩
  · intro α decode pf rf s kerr h
    constructor <;> simp [getPage, h]
  · intro α decode pf rf s pageArg reply h
    exact getPage_endReached_mono decode pf rf s pageArg reply h
  · intro α decode pf rf s kerr h
    simp [getPage, h]
  · intro α decode pf rf s n kerr
    simp [getPage]

/-- C3 witness: a 3201 error on an auto call of a fresh paginator gives the
empty page and a sticky flag; a 3201 error on an explicit call, and a 1001
error on an auto call, reject unchanged; a later call on the exhausted
paginator keeps the flag. -/
theorem C3_exhaustion_witness :
    ((getPage (fun v => (.ok v : Except JsErr JsVal)) "games" []
        paginatorInit none (.error ⟨.num 3201, .null⟩)).result = .ok []
      ∧ (getPage (fun v => (.ok v : Except JsErr JsVal)) "games" []
          paginatorInit none (.error ⟨.num 3201, .null⟩)).state.endReached
        = true)
    ∧ (getPage (fun v => (.ok v : Except JsErr JsVal)) "games" []
        ⟨1, .null, true, some 0⟩ none (.error ⟨.num 1001, .null⟩)).state.endReached
      = true
    ∧ (getPage (fun v => (.ok v : Except JsErr JsVal)) "games" []
        paginatorInit none (.error ⟨.num 1001, .null⟩)).result
      = .error (.api ⟨.num 1001, .null⟩)
    ∧ (getPage (fun v => (.ok v : Except JsErr JsVal)) "games" []
        paginatorInit (some 4) (.error ⟨.num 3201, .null⟩)).result
      = .error (.api ⟨.num 3201, .null⟩) :=
  ⟨C3_exhaustion.1 JsVal (fun v => .ok v) "games" [] paginatorInit
      ⟨.num 3201, .null⟩ rfl,
   C3_exhaustion.2.1 JsVal (fun v => .ok v) "games" [] ⟨1, .null, true, some 0⟩
      none (.error ⟨.num 1001, .null⟩) rfl,
   C3_exhaustion.2.2.1 JsVal (fun v => .ok v) "games" [] paginatorInit
      ⟨.num 1001, .null⟩ rfl,
   C3_exhaustion.2.2.2 JsVal (fun v => .ok v) "games" [] paginatorInit 4
      ⟨.num 3201, .null⟩⟩

/-- C4 counterexample: an explicit-page call DOES mutate engine state.  On a
fresh paginator, `getPage(5)` with a successful reply carrying `pages: 7`
overwrites the shared `parameters.page` entry (absent before, 5 after) and
the advisory `pages` count (`null` before, 7 after), so the state after the
call differs from the state before it. -/
theorem C4_counterexample :
    (getPage (fun v => (.ok v : Except JsErr JsVal)) "games" [] paginatorInit
      (some 5) (.ok (.obj [("pages", .num 7), ("games", .arr [])]))).state.parametersPage
      = some 5
    ∧ (getPage (fun v => (.ok v : Except JsErr JsVal)) "games" [] paginatorInit
      (some 5) (.ok (.obj [("pages", .num 7), ("games", .arr [])]))).state.pages
      = .num 7
    ∧ paginatorInit.parametersPage = none
    ∧ paginatorInit.pages = .null
    ∧ (getPage (fun v => (.ok v : Except JsErr JsVal)) "games" [] paginatorInit
      (some 5) (.ok (.obj [("pages", .num 7), ("games", .arr [])]))).state
      ≠ paginatorInit := by
  refine ⟨rfl, rfl, rfl, rfl, ?_⟩
  intro h
  have h2 : (some (5 : Int)) = (none : Option Int) :=
    congrArg PaginatorState.parametersPage h
  exact Option.noConfusion h2

/-- C4 (amended): three successive argument-less `getPage()` calls on a
fresh engine request pages 0, 1, 2 in that order, and the cursor advances by
exactly one per auto-advance call regardless of how each call settles; an
explicit `getPage(5)` fetches exactly page 5 and leaves the auto-advance
cursor and the `endReached` flag untouched — though, unlike the spec text,
it does update the stored `parameters.page` and the advisory `pages`
count. -/
theorem C4_cursor :
    (∀ (α : Type) (decode : JsVal → Except JsErr α) (pf : String)
       (rf : List (String × String)) (r1 r2 r3 : Except KasupelErrorE JsVal),
      (getPage decode pf rf paginatorInit none r1).requested = 0
      ∧ (getPage decode pf rf
          (getPage decode pf rf paginatorInit none r1).state none r2).requested
        = 1
      ∧ (getPage decode pf rf
          (getPage decode pf rf
            (getPage decode pf rf paginatorInit none r1).state none
            r2).state none r3).requested = 2)
    ∧ (∀ (α : Type) (decode : JsVal → Except JsErr α) (pf : String)
         (rf : List (String × String)) (s : PaginatorState)
         (reply : Except KasupelErrorE JsVal),
        (getPage decode pf rf s none reply).state.page = s.page + 1)
    ∧ (∀ (α : Type) (decode : JsVal → Except JsErr α) (pf : String)
         (rf : List (String × String)) (s : PaginatorState) (n : Int)
         (reply : Except KasupelErrorE JsVal),
        (getPage decode pf rf s (some n) reply).requested = n
        ∧ (getPage decode pf rf s (some n) reply).state.page = s.page
        ∧ (getPage decode pf rf s (some n) reply).state.endReached
          = s.endReached) := by
  refine ⟨?_, ?_, ?_⟩
  · intro α decode pf rf r1 r2 r3
    have h1 := getPage_auto_cursor decode pf rf paginatorInit r1
    have h2 := getPage_auto_cursor decode pf rf
      (getPage decode pf rf paginatorInit none r1).state r2
    have h3 := getPage_auto_cursor decode pf rf
      (getPage decode pf rf
        (getPage decode pf rf paginatorInit none r1).state none r2).state r3
    have hp0 : paginatorInit.page = 0 := rfl
    refine ⟨by rw [h1.1, hp0], by rw [h2.1, h1.2, hp0]; norm_num, ?_⟩
    rw [h3.1, h2.2, h1.2, hp0]
    norm_num
  · intro α decode pf rf s reply
    exact (getPage_auto_cursor decode pf rf s reply).2
  · intro α decode pf rf s n reply
    exact getPage_explicit_cursor decode pf rf s n reply

/-- Decoding a game item whose only field is a truthy `host` value: every
other field reads as `undefined`, and `host` becomes the decoded User. -/
theorem gameFromWire_host_only (u : JsVal) (usr : UserE)
    (hu : jsTruthy u = true) (hw : userFromWire u = .ok usr) :
    gameFromWire (.obj [("host", u)]) = .ok
      { id := .undefined, mode := none, host := some usr, away := none,
        invited := none, currentTurn := none, turnNumber := .undefined,
        timeControl := mkTimeControl .undefined .undefined .undefined, hostTime := .undefined,
        awayTime := .undefined, hostOfferingDraw := .undefined,
        awayOfferingDraw := .undefined, winner := none, conclusionType := none,
        openedAt := none, startedAt := none, endedAt := none } := by
  have hred : gameFromWire (.obj [("host", u)])
      = Except.bind (decodeOptionalUser u)
          (fun host => Except.ok
            { id := .undefined, mode := none, host := host, away := none,
              invited := none, currentTurn := none, turnNumber := .undefined,
              timeControl := mkTimeControl .undefined .undefined .undefined,
              hostTime := .undefined, awayTime := .undefined,
              hostOfferingDraw := .undefined, awayOfferingDraw := .undefined,
              winner := none, conclusionType := none, openedAt := none,
              startedAt := none, endedAt := none }) := rfl
  rw [hred]
  unfold decodeOptionalUser
  rw [hw, hu]
  rfl

/-- C8: reference-field resolution.  The game-listing helpers configure the
paginated field `games` with `host`, `away` and `invited` resolving against
the sibling `users` table; substitution replaces an item value `host: 3`
with the entry of the sibling table at key "3" before decoding; and the
decoded entity of a full `getPage` call then carries, in its host field,
exactly the decoded User from that table entry. -/
theorem C8_reference_fields :
    (gamePaginatedField = "games"
      ∧ gameReferenceFields
        = [("host", "users"), ("away", "users"), ("invited", "users")])
    ∧ (∀ u gs : JsVal,
        substituteRefs gameReferenceFields
          (.obj [("games", gs), ("users", .obj [("3", u)])])
          (.obj [("host", .num 3)])
        = .ok (.obj [("host", u)]))
    ∧ (∀ (u : JsVal) (usr : UserE), jsTruthy u = true →
        userFromWire u = .ok usr →
        ∃ g : GameE,
          (getPage gameFromWire gamePaginatedField gameReferenceFields
            paginatorInit none
            (.ok (.obj [("pages", .num 1),
                        ("games", .arr [.obj [("host", .num 3)]]),
                        ("users", .obj [("3", u)])]))).result = .ok [g]
          ∧ g.host = some usr) := by
  refine ⟨⟨rfl, rfl⟩, ?_, ?_⟩
  · intro u gs
    rfl
  · intro u usr hu hw
    refine ⟨{ id := .undefined, mode := none, host := some usr, away := none,
              invited := none, currentTurn := none, turnNumber := .undefined,
              timeControl := mkTimeControl .undefined .undefined .undefined,
              hostTime := .undefined, awayTime := .undefined,
              hostOfferingDraw := .undefined, awayOfferingDraw := .undefined,
              winner := none, conclusionType := none, openedAt := none,
              startedAt := none, endedAt := none }, ?_, rfl⟩
    have hg := gameFromWire_host_only u usr hu hw
    have hp0 : processItems gameFromWire gameReferenceFields
        (.obj [("pages", .num 1), ("games", .arr [.obj [("host", .num 3)]]),
               ("users", .obj [("3", u)])]) (.arr [.obj [("host", .num 3)]])
        = Except.bind
            (Except.bind (gameFromWire (.obj [("host", u)]))
              (fun x => Except.ok ([] ++ [x])))
            (fun b => Except.ok b) := rfl
    have hp : processItems gameFromWire gameReferenceFields
        (.obj [("pages", .num 1), ("games", .arr [.obj [("host", .num 3)]]),
               ("users", .obj [("3", u)])]) (.arr [.obj [("host", .num 3)]])
        = .ok [{ id := .undefined, mode := none, host := some usr, away := none,
                 invited := none, currentTurn := none, turnNumber := .undefined,
                 timeControl := mkTimeControl .undefined .undefined .undefined,
                 hostTime := .undefined, awayTime := .undefined,
                 hostOfferingDraw := .undefined, awayOfferingDraw := .undefined,
                 winner := none, conclusionType := none, openedAt := none,
                 startedAt := none, endedAt := none }] := by
      rw [hp0, hg]
      rfl
    unfold getPage
    simp [hp, jsGetProp, objLookup, List.find?, gamePaginatedField]

/-- C8 witness: resolving `host: 3` against `users` containing the wire user
with id 3 yields a game whose host is that decoded User. -/
theorem C8_reference_fields_witness :
    ∃ g : GameE,
      (getPage gameFromWire gamePaginatedField gameReferenceFields
        paginatorInit none
        (.ok (.obj [("pages", .num 1),
                    ("games", .arr [.obj [("host", .num 3)]]),
                    ("users", .obj [("3", .obj [("id", .num 3)])])]))).result
        = .ok [g]
      ∧ g.host = some ⟨.num 3, .undefined, .undefined, none, .null, false, .undefined,
          .undefined⟩ :=
  C8_reference_fields.2.2 (.obj [("id", .num 3)])
    ⟨.num 3, .undefined, .undefined, none, .null, false, .undefined, .undefined⟩ rfl rfl

-- Socket helper lemmas.

/-- Closed form of `n` sendEvent calls from a fresh socket: the ids handed
out are 0 .. n-1 in order, the next id is n, and the registered listeners
are an ack/request_error pair per call, in registration order. -/
theorem sendTrace_eq (n : Nat) :
    sendTrace n = (List.range n,
      ⟨n, (List.range n).bind
        (fun i => [("ack", i), ("request_error", i)])⟩) := by
  induction n with
  | zero => rfl
  | succ k ih =>
    unfold sendTrace
    rw [ih]
    simp [sendEvent, List.range_succ]

/-- Every issued call has its ack waiter registered. -/
theorem ack_listener_mem (n i : Nat) (h : i < n) :
    ("ack", i) ∈ (sendTrace n).2.listeners := by
  rw [sendTrace_eq]
  simp only [List.mem_bind, List.mem_range]
  exact ⟨i, h, by simp⟩

/-- C1: correlation ids are fresh and monotone (calls 0 .. n-1 of one socket
receive exactly the ids 0 .. n-1 in order, and the counter is never reset),
and with any number of calls in flight, delivering the responses in ANY
order resolves each call with exactly the response whose `response_to`
equals the id of that call. -/
theorem C1_correlation :
    (∀ n : Nat, (sendTrace n).1 = List.range n
      ∧ (sendTrace n).2.eventId = n)
    ∧ (∀ (n i : Nat) (rs : List RespEvent) (r : RespEvent),
        i < n → r ∈ rs → r.name = "ack" → r.respTo = i →
        (∀ r2 ∈ rs, r2.name = "ack" → r2.respTo = i → r2 = r) →
        settle (sendTrace n).2 rs i "ack" = some r) := by
  constructor
  · intro n
    rw [sendTrace_eq]
    exact ⟨rfl, rfl⟩
  · intro n i rs r hi hmem hname hrespTo huniq
    induction rs with
    | nil => cases hmem
    | cons r0 rest ih =>
      unfold settle
      by_cases hf : waiterFires (sendTrace n).2 "ack" i r0 = true
      · have hself : r0.name = "ack" ∧ r0.respTo = i := by
          unfold waiterFires at hf
          simp only [Bool.and_eq_true, decide_eq_true_eq] at hf
          exact ⟨hf.1.2, hf.2⟩
        have he : r0 = r := huniq r0 (List.mem_cons_self r0 rest) hself.1
          hself.2
        subst he
        simp [hf]
      · have hne : r ≠ r0 := by
          intro he
          apply hf
          unfold waiterFires
          simp only [← he, hname, hrespTo, Bool.and_eq_true, decide_eq_true_eq]
          refine ⟨⟨List.elem_eq_true_of_mem (ack_listener_mem n i hi), ?_⟩,
            ?_⟩ <;> simp
        have hmem2 : r ∈ rest := by
          rcases List.mem_cons.mp hmem with h | h
          · exact absurd h hne
          · exact h
        have ih2 := ih hmem2
          (fun r2 h2 => huniq r2 (List.mem_cons_of_mem r0 h2))
        simpa [hf, deliver] using ih2

/-- C1 witness: three concurrent calls answered in reverse order; the middle
call resolves with its own response. -/
theorem C1_correlation_witness :
    (sendTrace 3).1 = [0, 1, 2]
    ∧ settle (sendTrace 3).2
        [⟨"ack", 2, 102⟩, ⟨"ack", 1, 101⟩, ⟨"ack", 0, 100⟩] 1 "ack"
      = some ⟨"ack", 1, 101⟩ :=
  ⟨by rw [(C1_correlation.1 3).1]; rfl,
   C1_correlation.2 3 1 [⟨"ack", 2, 102⟩, ⟨"ack", 1, 101⟩, ⟨"ack", 0, 100⟩]
     ⟨"ack", 1, 101⟩ (by decide) (by decide) rfl rfl (by decide)⟩

/-- C2: the waiters are NOT removed after firing.  Delivering a response
never changes the registered listener set (the source never calls off or
uses once), so after the first call completes its two listeners are still
registered, and a second call grows the outstanding listener count from 2
to 4. -/
theorem C2_waiters_leak :
    (∀ (s : SendState) (r : RespEvent), deliver s r = s)
    ∧ (deliver (sendEvent "ack" sendInit).2 ⟨"ack", 0, 42⟩).listeners
      = [("ack", 0), ("request_error", 0)]
    ∧ (sendEvent "ack"
        (deliver (sendEvent "ack" sendInit).2 ⟨"ack", 0, 42⟩)).2.listeners.length
      = 4 :=
  ⟨fun _ _ => rfl, rfl, rfl⟩

-- Handler registry helper lemmas.

/-- If some entry for the event exists, the updated registry (after `on`
appends a callback) has a non-empty entry for the event at the same
position. -/
theorem find_in_bumped (event : String) (cb : JsVal) :
    ∀ l : List (String × List JsVal),
    l.any (fun p => p.1 = event) = true →
    ∃ hs, (l.map (fun p => if p.1 = event then (p.1, p.2 ++ [cb]) else p)).find?
        (fun p => p.1 = event) = some (event, hs) ∧ hs ≠ [] := by
  intro l
  induction l with
  | nil => intro h; simp at h
  | cons q rest ih =>
    intro h
    by_cases hq : q.1 = event
    · refine ⟨q.2 ++ [cb], ?_, by simp⟩
      simp [List.find?_cons, hq]
    · have h2 : rest.any (fun p => p.1 = event) = true := by
        simpa [hq] using h
      obtain ⟨hs, hfind, hne⟩ := ih h2
      refine ⟨hs, ?_, hne⟩
      simpa [List.find?_cons, hq] using hfind

/-- If no entry for the event exists, `on` appends a fresh singleton entry
which the lookup then finds. -/
theorem find_in_appended (event : String) (cb : JsVal) :
    ∀ l : List (String × List JsVal),
    l.any (fun p => p.1 = event) = false →
    ((l ++ [(event, [cb])]).find? (fun p => p.1 = event))
      = some (event, [cb]) := by
  intro l
  induction l with
  | nil => intro _; simp [List.find?]
  | cons q rest ih =>
    intro h
    have hq : ¬ q.1 = event := by
      intro he
      simp [he] at h
    have h2 : rest.any (fun p => p.1 = event) = false := by
      simpa [hq] using h
    simpa [List.find?_cons, hq] using ih h2

/-- After registering a callback for an event, the registry entry for that
event is present and non-empty. -/
theorem handlersAdd_find (handlers : List (String × List JsVal))
    (event : String) (cb : JsVal) :
    ∃ hs, (handlersAdd handlers event cb).find? (fun p => p.1 = event)
      = some (event, hs) ∧ hs ≠ [] := by
  unfold handlersAdd
  split
  case isTrue h => exact find_in_bumped event cb handlers h
  case isFalse h =>
    refine ⟨[cb], ?_, by simp⟩
    refine find_in_appended event cb handlers ?_
    cases hx : handlers.any (fun p => p.1 = event)
    · rfl
    · exact absurd hx h

/-- C7 (code bug): handlers are never invoked.  Registering one handler for
`draw_offer` and dispatching one occurrence of that event raises a
TypeError, because `for...in` over the handler array iterates its index
strings and the dispatcher calls the index string instead of the stored
callback; in general, after registering any callback for any event on any
registry, dispatching that event errors instead of invoking the
handlers. -/
theorem C7_handlers_never_invoked :
    (handlersAdd [] "draw_offer" (.fn 0) = [("draw_offer", [.fn 0])])
    ∧ (dispatchEvent (handlersAdd [] "draw_offer" (.fn 0)) [] "draw_offer"
        = .error (.typeError "handler is not a function"))
    ∧ (∀ (handlers : List (String × List JsVal)) (event : String)
         (cb : JsVal) (args : List JsVal),
        ∃ e, dispatchEvent (handlersAdd handlers event cb) args event
          = .error e) := by
  refine ⟨rfl, rfl, ?_⟩
  intro handlers event cb args
  obtain ⟨hs, hfind, hne⟩ := handlersAdd_find handlers event cb
  refine ⟨.typeError "handler is not a function", ?_⟩
  unfold dispatchEvent
  rw [hfind]
  cases hs with
  | nil => exact absurd rfl hne
  | cons a rest =>
    simp only [List.length_cons, List.range_succ_eq_map, List.foldlM, jsCall]
    rfl

-- Board helper lemmas.

/-- Property access on a non-nullish value always returns normally. -/
theorem jsGetProp_ok_of_nonNullish (v : JsVal) (k : String)
    (h : nonNullish v = true) : ∃ w, jsGetProp v k = .ok w := by
  cases v <;> first
    | exact ⟨_, rfl⟩
    | simp [nonNullish] at h

/-- A successful object lookup returns the value of some stored field. -/
theorem objLookup_val_mem (fields : List (String × JsVal)) (k : String)
    (v : JsVal) (h : objLookup fields k = some v) :
    ∃ p ∈ fields, p.2 = v := by
  unfold objLookup at h
  cases hf : fields.find? (fun p => p.1 = k) with
  | none => simp [hf] at h
  | some p =>
    simp [hf] at h
    exact ⟨p, List.mem_of_find?_eq_some hf, h⟩

/-- The file loop never throws on an object with non-nullish values, and
always pushes exactly one cell per file. -/
theorem boardFiles_ok (data : List (String × JsVal))
    (hall : data.all (fun p => nonNullish p.2) = true) :
    ∀ (fuel : Nat) (cells : List BoardCell),
    ∃ cs, boardFiles data fuel cells = .ok cs
      ∧ cs.length = cells.length + fuel := by
  intro fuel
  induction fuel with
  | zero => intro cells; exact ⟨cells, rfl, by simp⟩
  | succ k ih =>
    intro cells
    cases hl : objLookup data (rankKey cells) with
    | none =>
      obtain ⟨cs, h1, h2⟩ := ih (cells ++ [none])
      refine ⟨cs, ?_, ?_⟩
      · unfold boardFiles
        rw [hl]
        exact h1
      · simp at h2
        simp [h2]
        omega
    | some v =>
      have hv : nonNullish v = true := by
        obtain ⟨p, hp, he⟩ := objLookup_val_mem data (rankKey cells) v hl
        have := (List.all_eq_true.mp hall) p hp
        simpa [he] using this
      obtain ⟨w0, hw0⟩ := jsGetProp_ok_of_nonNullish v "0" hv
      obtain ⟨w1, hw1⟩ := jsGetProp_ok_of_nonNullish v "1" hv
      obtain ⟨cs, h1, h2⟩ := ih
        (cells ++ [some ⟨PieceType.getByValue w0, Side.getByValue w1⟩])
      refine ⟨cs, ?_, ?_⟩
      · unfold boardFiles
        rw [hl]
        simp only [hw0, hw1]
        exact h1
      · simp at h2
        simp [h2]
        omega

/-- Each of the eight miss-path probe keys is in `missProbeKeys`. -/
theorem rankKey_replicate_mem : ∀ k < 8,
    rankKey (List.replicate k (none : BoardCell)) ∈ missProbeKeys := by
  decide

/-- When no stored key is a miss-path probe key, the file loop pushes only
`null` cells. -/
theorem boardFiles_allmiss (data : List (String × JsVal))
    (hkeys : ∀ p ∈ data, p.1 ∉ missProbeKeys) :
    ∀ (fuel k : Nat), fuel + k = 8 →
    boardFiles data fuel (List.replicate k (none : BoardCell))
      = .ok (List.replicate 8 none) := by
  intro fuel
  induction fuel with
  | zero =>
    intro k hk
    have : k = 8 := by omega
    subst this
    rfl
  | succ f ih =>
    intro k hk
    have hk8 : k < 8 := by omega
    have hmiss : rankKey (List.replicate k (none : BoardCell))
        ∈ missProbeKeys := rankKey_replicate_mem k hk8
    have hl : objLookup data (rankKey (List.replicate k (none : BoardCell)))
        = none := by
      unfold objLookup
      rw [List.find?_eq_none.mpr]
      · rfl
      · intro p hp
        simp only [decide_eq_true_eq]
        intro he
        exact hkeys p hp (he ▸ hmiss)
    unfold boardFiles
    rw [hl]
    have hrep : List.replicate k (none : BoardCell) ++ [none]
        = List.replicate (k + 1) (none : BoardCell) :=
      (List.replicate_succ' k (none : BoardCell)).symm
    rw [hrep]
    exact ih (k + 1) (by omega)

/-- C10 counterexample: Board construction CAN throw.  On the wire object
mapping the probe key ",0" to `null`, the constructor finds the key and then
evaluates `data[positionKey][0]` on a `null` value, raising a TypeError. -/
theorem C10_counterexample :
    boardFromWire [(",0", JsVal.null)]
      = .error (.typeError "cannot read properties of null") := rfl

/-- C10 (amended): for every wire object none of whose stored values is
nullish, Board construction never throws and yields exactly 8 ranks of 8
cells, each cell `null` or a Piece (whose type and side may themselves be
undefined when the stored values decode to no enum member); and positions
absent from the wire object are `null` — in particular, because the probe
keys are the stringified cell array rather than "rank,file", any object
whose keys avoid the eight comma probe keys (every standard "rank,file"
keyed object included) decodes to the all-empty board. -/
theorem C10_board_shape :
    (∀ data : List (String × JsVal),
      data.all (fun p => nonNullish p.2) = true →
      ∃ b, boardFromWire data = .ok b ∧ b.length = 8
        ∧ ∀ r ∈ b, r.length = 8)
    ∧ (∀ data : List (String × JsVal),
      (∀ p ∈ data, p.1 ∉ missProbeKeys) →
      boardFromWire data
        = .ok (List.replicate 8 (List.replicate 8 none))) := by
  constructor
  · intro data hall
    obtain ⟨cs, h1, h2⟩ := boardFiles_ok data hall 8 []
    refine ⟨List.replicate 8 cs, ?_, by simp, ?_⟩
    · unfold boardFromWire
      rw [h1]
      rfl
    · intro r hr
      have : r = cs := List.eq_of_mem_replicate hr
      subst this
      simpa using h2
  · intro data hkeys
    unfold boardFromWire
    have h := boardFiles_allmiss data hkeys 8 0 rfl
    simp only [List.replicate] at h
    rw [h]
    rfl

/-- C10 witness: a standard wire object carrying a white rook at "0,0" with
an array value: construction succeeds, the board is 8 by 8, and (because the
probed keys never match "rank,file" keys) every cell is empty. -/
theorem C10_board_shape_witness :
    (∃ b, boardFromWire [("0,0", .arr [.num 2, .num 1])] = .ok b
      ∧ b.length = 8 ∧ ∀ r ∈ b, r.length = 8)
    ∧ boardFromWire [("0,0", .arr [.num 2, .num 1])]
      = .ok (List.replicate 8 (List.replicate 8 none)) :=
  ⟨C10_board_shape.1 [("0,0", .arr [.num 2, .num 1])] rfl,
   C10_board_shape.2 [("0,0", .arr [.num 2, .num 1])] (by decide)⟩
